import Mathlib

/-!
Verification of the module reference discovery engine
(crates/turbopack/src/ecmascript/references.rs and
crates/turbopack-ecmascript/src/webpack/mod.rs).

The definitions below are a shallow embedding of the Rust source.  Parts of
the repository that are referenced from the source files but are not part of
them (the analyzer crate's JsValue/linker/graph builder, the resolver crate's
Pattern, the task runtime) are modelled from the specification; each such
definition carries a doc comment starting with `Modelled from the spec:`.
-/

namespace Turbopack

/-- swc `Lit` literal kinds, as used by the visitor and the webpack chunk
reference.  Numbers are modelled as integers (the claims only involve
integral literals). -/
inductive Lit where
  | str (s : String)
  | num (n : Int)
  | bool (b : Bool)
  | null
  | bigint (n : Int)
  | regex (s : String)
deriving DecidableEq, Repr

/-- Diagnostic severity: `DiagnosticId::Lint` vs `DiagnosticId::Error`. -/
inductive Severity where
  | lint
  | error
deriving DecidableEq, Repr

/-- A diagnostic emitted through `handler.span_warn_with_code`.  The code is
one of the stable strings from `errors::failed_to_analyse::ecmascript`. -/
structure Diagnostic where
  severity : Severity
  span : Nat
  code : String
  message : String
deriving DecidableEq, Repr

/-- Modelled from the spec: an atomic component of a `Pattern` — either a
known constant string or a dynamic (unknown) part. -/
inductive PatternAtom where
  | constant (s : String)
  | dynamic
deriving DecidableEq, Repr

/-- Modelled from the spec: `Pattern`, a pattern over strings with a
`has_constant_parts()` predicate and an `is_match(literal)` predicate
(the `resolve::pattern` module is not among the source files).  A pattern
is either a single atom or a concatenation of atoms, the engine's
representation of partially-known strings. -/
inductive Pattern where
  | constant (s : String)
  | dynamic
  | concatenation (parts : List PatternAtom)
deriving DecidableEq, Repr

/-- The atomic parts of a pattern. -/
def Pattern.parts : Pattern → List PatternAtom
  | .constant s => [.constant s]
  | .dynamic => [.dynamic]
  | .concatenation ps => ps

/-- Modelled from the spec: a pattern has constant parts when some component
of it is a known constant string. -/
def Pattern.has_constant_parts (p : Pattern) : Bool :=
  p.parts.any fun a => match a with
    | .constant _ => true
    | .dynamic => false

/-- Match a part list against a character list: a constant part must occur
literally, a dynamic part matches any (possibly empty) substring. -/
def Pattern.matchParts : List PatternAtom → List Char → Bool
  | [], s => s.isEmpty
  | .constant c :: rest, s =>
      c.toList.isPrefixOf s && Pattern.matchParts rest (s.drop c.toList.length)
  | .dynamic :: rest, s => (s.tails).any fun t => Pattern.matchParts rest t

/-- Modelled from the spec: `Pattern.is_match(literal)` — whether the pattern
can denote the given literal string. -/
def Pattern.is_match (p : Pattern) (s : String) : Bool :=
  Pattern.matchParts p.parts s.toList

/-- Modelled from the spec: a string converts into a constant pattern
(the `impl From<String> for Pattern` behind `src.into()`). -/
def Pattern.ofString (s : String) : Pattern := .constant s

/-- Modelled from the spec: display form of a pattern, used in the
"unresolveable request" message. -/
def Pattern.toDisplay (p : Pattern) : String :=
  String.intercalate "" (p.parts.map fun a => match a with
    | .constant s => s
    | .dynamic => "*")

/-! ## The abstract value lattice (`JsValue`)

The `analyzer` module is not among the source files; the `JsValue` data
model is modelled from the spec (§3).  The source additionally stores a
node-count `usize` as the first field of compound variants (matched only
with `_` in `references.rs`); the spec omits it and so does this model. -/

/-- Modelled from the spec: primitive constants carried by
`JsValue::Constant`. -/
inductive ConstantValue where
  | str (s : String)
  | num (n : Int)
  | bool (b : Bool)
  | null
  | undefined
deriving DecidableEq, Repr

/-- The type `FreeVarKind`: unresolved free identifiers, as matched in
`value_visitor_inner`. -/
inductive FreeVarKind where
  | dirname
  | filename
  | require
  | import
  | nodeProcess
  | other (s : String)
deriving DecidableEq, Repr

/-- The type `WellKnownFunctionKind`: the canonical host functions matched in
`handle_call` and `value_visitor_inner`. -/
inductive WellKnownFunctionKind where
  | import
  | require
  | requireResolve
  | pathJoin
  | fsReadMethod (name : String)
  | childProcessSpawnMethod (name : String)
  | childProcessFork
deriving DecidableEq, Repr

/-- The type `WellKnownObjectKind`: the canonical host objects produced by
`value_visitor_inner`. -/
inductive WellKnownObjectKind where
  | nodeProcess
  | pathModule
  | fsModule
  | childProcess
  | osModule
deriving DecidableEq, Repr

/-- Modelled from the spec: the abstract JS value lattice (§3).  Variant
names follow the source (`JsValue::…`). -/
inductive JsValue where
  | constant (c : ConstantValue)
  | array (items : List JsValue)
  | concat (parts : List JsValue)
  | add (parts : List JsValue)
  | call (callee : JsValue) (args : List JsValue)
  | member (obj : JsValue) (prop : JsValue)
  | variable (id : Nat)
  | alternatives (values : List JsValue)
  | freeVar (kind : FreeVarKind)
  | module (name : String)
  | argument (idx : Nat)
  | wellKnownFunction (kind : WellKnownFunctionKind)
  | wellKnownObject (kind : WellKnownObjectKind)
  | unknown (origin : Option JsValue) (reason : String)
deriving Repr

/-- Structural boolean equality on `JsValue` (the derived handler is not
available for this nested inductive). -/
def JsValue.beq : JsValue → JsValue → Bool
  | .constant a, .constant b => a == b
  | .array xs, .array ys =>
      xs.length == ys.length &&
        (xs.zip ys).attach.all fun q => JsValue.beq q.1.1 q.1.2
  | .concat xs, .concat ys =>
      xs.length == ys.length &&
        (xs.zip ys).attach.all fun q => JsValue.beq q.1.1 q.1.2
  | .add xs, .add ys =>
      xs.length == ys.length &&
        (xs.zip ys).attach.all fun q => JsValue.beq q.1.1 q.1.2
  | .call f xs, .call g ys =>
      JsValue.beq f g && xs.length == ys.length &&
        (xs.zip ys).attach.all fun q => JsValue.beq q.1.1 q.1.2
  | .member o pr, .member o' pr' => JsValue.beq o o' && JsValue.beq pr pr'
  | .variable i, .variable j => i == j
  | .alternatives xs, .alternatives ys =>
      xs.length == ys.length &&
        (xs.zip ys).attach.all fun q => JsValue.beq q.1.1 q.1.2
  | .freeVar a, .freeVar b => a == b
  | .module a, .module b => a == b
  | .argument a, .argument b => a == b
  | .wellKnownFunction a, .wellKnownFunction b => a == b
  | .wellKnownObject a, .wellKnownObject b => a == b
  | .unknown (some a) ra, .unknown (some b) rb => JsValue.beq a b && ra == rb
  | .unknown none ra, .unknown none rb => ra == rb
  | _, _ => false
termination_by a b => sizeOf a
decreasing_by
  all_goals simp_wf
  all_goals
    first
    | (rcases q with ⟨⟨x, y⟩, hm⟩
       obtain ⟨ha, -⟩ := List.of_mem_zip hm
       have := List.sizeOf_lt_of_mem ha
       simp only at *
       omega)
    | omega

instance : BEq JsValue := ⟨JsValue.beq⟩

/-- Deduplication keeping first occurrences, used by the `alternatives`
smart constructor. -/
def dedupBy (eq : α → α → Bool) : List α → List α
  | [] => []
  | a :: rest => a :: dedupBy eq (rest.filter fun b => !eq a b)
termination_by l => l.length
decreasing_by
  have := List.length_filter_le (fun b => !eq a b) rest
  simp only [List.length_cons]
  omega

instance : Inhabited JsValue := ⟨.unknown none "empty"⟩

/-- Modelled from the spec: the `alternatives(vs)` smart constructor
performs flatten + dedup, and a singleton collapses to its element
(§3 invariant (i)/(iii), §4.1). -/
def JsValue.alternativesC (vs : List JsValue) : JsValue :=
  let flat := vs.flatMap fun v => match v with
    | .alternatives xs => xs
    | v => [v]
  match dedupBy JsValue.beq flat with
  | [v] => v
  | l => .alternatives l

/-- Modelled from the spec: `js_value_to_pattern` (from the crate's
`ecmascript/utils.rs`, not among the source files) derives a request
pattern from an abstract value: string constants give constant parts,
`Add`/`Concat` concatenate the sub-patterns, everything else is dynamic. -/
def js_value_to_pattern : JsValue → Pattern
  | .constant (.str s) => .constant s
  | .add parts =>
      .concatenation (parts.attach.flatMap fun q => (js_value_to_pattern q.1).parts)
  | .concat parts =>
      .concatenation (parts.attach.flatMap fun q => (js_value_to_pattern q.1).parts)
  | _ => .dynamic
termination_by v => sizeOf v
decreasing_by
  all_goals
    have := List.sizeOf_lt_of_mem q.2
    simp only [JsValue.add.sizeOf_spec, JsValue.concat.sizeOf_spec]
    omega

/-- Modelled from the spec: a shallow display form for `JsValue`, standing
in for the rendering used by `JsValue::explain_args`. -/
def JsValue.toDisplay : JsValue → String
  | .constant (.str s) => "\"" ++ s ++ "\""
  | .constant (.num n) => toString n
  | .constant (.bool b) => toString b
  | .constant .null => "null"
  | .constant .undefined => "undefined"
  | .wellKnownFunction _ => "<well-known function>"
  | .wellKnownObject _ => "<well-known object>"
  | .unknown _ _ => "???"
  | _ => "<value>"

/-- Modelled from the spec: `JsValue::explain_args(&args, 10, 2)` returns
the rendered argument list and a trailing human-readable hint string. -/
def explain_args (args : List JsValue) : String × String :=
  (String.intercalate ", " (args.map JsValue.toDisplay), "")

/-! ## Reference records and diagnostic codes -/

/-- The reference records of `references.rs` and the webpack records of
`webpack/mod.rs`.  The owning source asset is the module under analysis and
is left implicit; ESM/CJS requests are stored as the pattern they are parsed
from (`RequestVc::parse(Value::new(pat))`); `special` stands for the opaque
records pushed by `special_cases`. -/
inductive AssetReference where
  | packageJson (path : String)
  | tsConfig (path : String)
  | esm (request : Pattern) (fromTypescript : Bool)
  | cjs (request : Pattern) (fromTypescript : Bool)
  | tsReferencePath (path : String)
  | tsReferenceType (moduleName : String)
  | sourceAsset (path : Pattern)
  | webpackRuntime (request : String)
  | webpackEntry
  | webpackChunk (chunkId : Lit)
  | special (tag : String)
deriving DecidableEq, Repr

/-- Modelled from the spec: the stable diagnostic code strings of
`errors::failed_to_analyse::ecmascript` (§6). -/
def DYNAMIC_IMPORT : String := "DYNAMIC_IMPORT"

/-- Modelled from the spec: stable diagnostic code. -/
def REQUIRE : String := "REQUIRE"

/-- Modelled from the spec: stable diagnostic code. -/
def REQUIRE_RESOLVE : String := "REQUIRE_RESOLVE"

/-- Modelled from the spec: stable diagnostic code. -/
def FS_METHOD : String := "FS_METHOD"

/-- Modelled from the spec: stable diagnostic code. -/
def PATH_METHOD : String := "PATH_METHOD"

/-- Modelled from the spec: stable diagnostic code. -/
def CHILD_PROCESS_SPAWN : String := "CHILD_PROCESS_SPAWN"

/-! ## The effect handler (`handle_call`) -/

/-- Function `handle_call` from `references.rs` (lines 232–510): dispatch on the
fully linked callee and emit references and diagnostics.  `link_value`
models the linker closure passed by `module_references` (the linker crate
is external to the source files).  The returned lists are the references
pushed into the shared `references` vector and the diagnostics raised on
the handler, each in emission order. -/
def handle_call (span : Nat) (func this_ : JsValue) (args : List JsValue)
    (link_value : JsValue → JsValue) (is_typescript : Bool) :
    List AssetReference × List Diagnostic :=
  let linked_args := args.map link_value
  match func with
  | .alternatives alts =>
      alts.attach.foldl
        (fun acc q =>
          let r := handle_call span q.1 this_ args link_value is_typescript
          (acc.1 ++ r.1, acc.2 ++ r.2))
        ([], [])
  | .wellKnownFunction .import =>
      if linked_args.length = 1 then
        let pat := js_value_to_pattern linked_args.headI
        let d :=
          if !pat.has_constant_parts then
            let (a, h) := explain_args linked_args
            [⟨.lint, span, DYNAMIC_IMPORT,
              "import(" ++ a ++ ") is very dynamic" ++ h⟩]
          else []
        ([AssetReference.esm pat is_typescript], d)
      else
        let (a, h) := explain_args linked_args
        ([], [⟨.error, span, DYNAMIC_IMPORT,
          "import(" ++ a ++ ") is not statically analyse-able" ++ h⟩])
  | .wellKnownFunction .require =>
      if linked_args.length = 1 then
        let pat := js_value_to_pattern linked_args.headI
        let d :=
          if !pat.has_constant_parts then
            let (a, h) := explain_args linked_args
            [⟨.lint, span, REQUIRE,
              "require(" ++ a ++ ") is very dynamic" ++ h⟩]
          else []
        ([AssetReference.cjs pat is_typescript], d)
      else
        let (a, h) := explain_args linked_args
        ([], [⟨.error, span, REQUIRE,
          "require(" ++ a ++ ") is not statically analyse-able" ++ h⟩])
  | .wellKnownFunction .requireResolve =>
      if linked_args.length = 1 then
        let pat := js_value_to_pattern linked_args.headI
        let d :=
          if !pat.has_constant_parts then
            let (a, h) := explain_args linked_args
            [⟨.lint, span, REQUIRE_RESOLVE,
              "require.resolve(" ++ a ++ ") is very dynamic" ++ h⟩]
          else []
        ([AssetReference.cjs pat is_typescript], d)
      else
        let (a, h) := explain_args linked_args
        ([], [⟨.error, span, REQUIRE_RESOLVE,
          "require.resolve(" ++ a ++ ") is not statically analyse-able" ++ h⟩])
  | .wellKnownFunction (.fsReadMethod name) =>
      if linked_args.length ≥ 1 then
        let pat := js_value_to_pattern linked_args.headI
        let d :=
          if !pat.has_constant_parts then
            let (a, h) := explain_args linked_args
            [⟨.lint, span, FS_METHOD,
              "fs." ++ name ++ "(" ++ a ++ ") is very dynamic" ++ h⟩]
          else []
        ([AssetReference.sourceAsset pat], d)
      else
        let (a, h) := explain_args linked_args
        ([], [⟨.error, span, FS_METHOD,
          "fs." ++ name ++ "(" ++ a ++ ") is not statically analyse-able" ++ h⟩])
  | .wellKnownFunction .pathJoin =>
      let linked_func_call :=
        link_value (.call (.wellKnownFunction .pathJoin) args)
      let pat := js_value_to_pattern linked_func_call
      let d :=
        if !pat.has_constant_parts then
          let (a, h) := explain_args linked_args
          [⟨.lint, span, PATH_METHOD,
            "path.join(" ++ a ++ ") is very dynamic" ++ h⟩]
        else []
      ([AssetReference.sourceAsset pat], d)
  | .wellKnownFunction (.childProcessSpawnMethod name) =>
      if linked_args.length ≥ 1 then
        let pat := js_value_to_pattern linked_args.headI
        let nodeRefs :=
          if pat.is_match "node" ∧ linked_args.length ≥ 2 then
            let first_arg :=
              link_value (.member (linked_args.getD 1 default)
                (.constant (.num 0)))
            let patf := js_value_to_pattern first_arg
            ([AssetReference.cjs patf is_typescript],
             !patf.has_constant_parts)
          else ([], false)
        let d :=
          if nodeRefs.2 || !pat.has_constant_parts then
            let (a, h) := explain_args linked_args
            [⟨.lint, span, CHILD_PROCESS_SPAWN,
              "child_process." ++ name ++ "(" ++ a ++ ") is very dynamic" ++ h⟩]
          else []
        (nodeRefs.1 ++ [AssetReference.sourceAsset pat], d)
      else
        let (a, h) := explain_args linked_args
        ([], [⟨.error, span, CHILD_PROCESS_SPAWN,
          "child_process." ++ name ++ "(" ++ a ++
            ") is not statically analyse-able" ++ h⟩])
  | .wellKnownFunction .childProcessFork =>
      if args.length ≥ 1 then
        let first_arg := link_value args.headI
        let pat := js_value_to_pattern first_arg
        let d :=
          if !pat.has_constant_parts then
            let (a, h) := explain_args linked_args
            [⟨.lint, span, CHILD_PROCESS_SPAWN,
              "child_process.fork(" ++ a ++ ") is very dynamic" ++ h⟩]
          else []
        ([AssetReference.cjs pat is_typescript], d)
      else
        let (a, h) := explain_args linked_args
        ([], [⟨.error, span, CHILD_PROCESS_SPAWN,
          "child_process.fork(" ++ a ++ ") is not statically analyse-able" ++ h⟩])
  | _ => ([], [])
termination_by sizeOf func
decreasing_by
  have := List.sizeOf_lt_of_mem q.2
  simp only [JsValue.alternatives.sizeOf_spec]
  omega

/-! ## swc AST fragment and the static analyser

Only the AST shapes inspected by `references.rs` are modelled.  Member
expressions carry their `MemberProp` inline (ident / private-name /
computed); a call's callee is `some expr` for `Callee::Expr` and `none`
for `Callee::Super`/`Callee::Import`; spans are opaque naturals. -/

mutual

inductive Expr where
  | lit (l : Lit)
  | ident (s : String)
  | memberIdent (obj : Expr) (name : String)
  | memberPrivateName (obj : Expr)
  | memberComputed (obj : Expr) (propExpr : Expr)
  | array (elems : List ArrayElem)
  | callExpr (callee : Option Expr) (args : List ExprArg) (span : Nat)
  | otherExpr

inductive ArrayElem where
  | hole
  | elem (spread : Bool) (e : Expr)

inductive ExprArg where
  | mk (spread : Bool) (e : Expr)

end

/-- The type `StaticExpr`, the tiny lattice of the old analyser. -/
inductive StaticExpr where
  | string (s : String)
  | freeVar (path : List String)
  | importedVar (moduleName : String) (path : List String)
  | unknown
deriving DecidableEq, Repr

/-- The `StaticAnalyser` import table: local name ↦ (module, import path).
The source's `HashMap` insert/lookup is modelled by a prepend-shadowing
association list. -/
abbrev ImportMap := List (String × String × List String)

/-- Lookup (`HashMap::get`) on the import table. -/
def lookupImport (imports : ImportMap) (k : String) :
    Option (String × List String) :=
  match imports.find? fun e => e.1 == k with
  | some e => some e.2
  | none => none

/-- Insert (`HashMap::insert`) on the import table (overwriting semantics via
shadowing). -/
def insertImport (imports : ImportMap) (k : String)
    (v : String × List String) : ImportMap :=
  (k, v.1, v.2) :: imports

/-- Join a member step onto an evaluated object, as in
`StaticAnalyser::evaluate_expr`'s `Expr::Member` arm: a resolved property
name extends a free-variable or imported-variable path, anything else is
unknown. -/
def memberStep (obj : StaticExpr) (name : Option String) : StaticExpr :=
  match obj with
  | .freeVar vec =>
      match name with
      | some n => .freeVar (vec ++ [n])
      | none => .unknown
  | .importedVar m vec =>
      match name with
      | some n => .importedVar m (vec ++ [n])
      | none => .unknown
  | _ => .unknown

/-- The method `StaticAnalyser::evaluate_expr` (with `prop_to_name` inlined per member
variant): string literals, identifiers through the import table, and member
chains with statically known property names. -/
def evaluate_expr (imports : ImportMap) : Expr → StaticExpr
  | .lit (.str s) => .string s
  | .lit _ => .unknown
  | .ident s =>
      match lookupImport imports s with
      | some (m, path) => .importedVar m path
      | none => .freeVar [s]
  | .memberIdent obj name => memberStep (evaluate_expr imports obj) (some name)
  | .memberPrivateName obj => memberStep (evaluate_expr imports obj) none
  | .memberComputed obj propExpr =>
      memberStep (evaluate_expr imports obj)
        (match evaluate_expr imports propExpr with
         | .string s => some s
         | _ => none)
  | .array _ => .unknown
  | .callExpr _ _ _ => .unknown
  | .otherExpr => .unknown

/-! ## The syntactic visitor (`AssetReferencesVisitor`) -/

/-- The mutable state of `AssetReferencesVisitor`: the shared `references`
vector, the old analyser's import table, and the webpack markers. -/
structure VisitState where
  references : List AssetReference
  imports : ImportMap
  webpackRuntime : Option (String × Nat)
  webpackEntry : Bool
  webpackChunks : List Lit
deriving DecidableEq, Repr

/-- The chunk-id collection of `visit_call_expr`: for each array element
that is present, unspread and a literal, collect the literal. -/
def collectChunkLits (elems : List ArrayElem) : List Lit :=
  elems.filterMap fun el =>
    match el with
    | .elem false (.lit l) => some l
    | _ => none

/-- The webpack-signature handling at the top of `visit_call_expr`
(lines 872–905): recognize `__webpack_require__.C(...)` (entry marker) and
`__webpack_require__.X(_, [ids], _)` (chunk collection) through the old
analyser. -/
def webpackCallHandler (st : VisitState) (callee : Option Expr)
    (args : List ExprArg) : VisitState :=
  match callee with
  | some e =>
      match evaluate_expr st.imports e with
      | .freeVar [webpack_require, property] =>
          if webpack_require == "__webpack_require__" && property == "C" then
            { st with webpackEntry := true }
          else if webpack_require == "__webpack_require__" && property == "X" then
            match args with
            | [_, .mk false chunk_ids, _] =>
                match chunk_ids with
                | .array elems =>
                    { st with webpackChunks :=
                        st.webpackChunks ++ collectChunkLits elems }
                | _ => st
            | _ => st
          else st
      | _ => st
  | none => st

mutual

/-- The expression traversal of the visitor: custom `visit_call_expr`
handling first, then the standard recursion into children. -/
def visitExpr (st : VisitState) : Expr → VisitState
  | .lit _ => st
  | .ident _ => st
  | .memberIdent obj _ => visitExpr st obj
  | .memberPrivateName obj => visitExpr st obj
  | .memberComputed obj propExpr => visitExpr (visitExpr st obj) propExpr
  | .array elems => visitElems st elems
  | .callExpr callee args _ =>
      let st1 := webpackCallHandler st callee args
      let st2 :=
        match callee with
        | some e => visitExpr st1 e
        | none => st1
      visitArgs st2 args
  | .otherExpr => st

/-- Traverse array elements in order. -/
def visitElems (st : VisitState) : List ArrayElem → VisitState
  | [] => st
  | .hole :: rest => visitElems st rest
  | .elem _ e :: rest => visitElems (visitExpr st e) rest

/-- Traverse call arguments in order. -/
def visitArgs (st : VisitState) : List ExprArg → VisitState
  | [] => st
  | .mk _ e :: rest => visitArgs (visitExpr st e) rest

end

/-- swc `ModuleExportName`. -/
inductive ModuleExportName where
  | ident (s : String)
  | str (s : String)
deriving DecidableEq, Repr

/-- swc `ImportSpecifier` (named / default / namespace). -/
inductive ImportSpecifier where
  | named (localName : String) (imported : Option ModuleExportName)
      (typeOnly : Bool)
  | defaultSpecifier (localName : String)
  | namespaceSpecifier (localName : String)
deriving DecidableEq, Repr

/-- swc `VarDeclarator`, with `name.as_ident()` pre-applied (`none` when the
binding is a destructuring pattern). -/
structure VarDeclarator where
  name : Option String
  init : Option Expr

/-- The top-level module items the visitor reacts to. -/
inductive ModuleItem where
  | importDecl (src : String) (typeOnly : Bool)
      (specifiers : List ImportSpecifier)
  | exportAll (src : String)
  | namedExport (src : Option String)
  | varDecl (decls : List VarDeclarator)
  | exprStmt (e : Expr)
  | otherItem

/-- Record one import specifier into the old analyser's import table
(the specifier loop of `visit_import_decl`, lines 813–842): type-only named
specifiers are skipped, default imports bind `["default"]`, namespace
imports bind the empty path. -/
def recordImportSpecifier (src : String) (s : VisitState)
    (spec : ImportSpecifier) : VisitState :=
  match spec with
  | .named localName imported tOnly =>
      if !tOnly then
        let importedName :=
          match imported with
          | some (.ident i) => i
          | some (.str str) => str
          | none => localName
        let table := insertImport s.imports localName (src, [importedName])
        { s with imports := table }
      else s
  | .defaultSpecifier localName =>
      let table := insertImport s.imports localName (src, ["default"])
      { s with imports := table }
  | .namespaceSpecifier localName =>
      let table := insertImport s.imports localName (src, [])
      { s with imports := table }

/-- Visitor method `visit_import_decl` (lines 799–843): always push an `EsmAssetReference`
for the literal specifier; when the import is not type-only, record the
bindings of its specifiers in the old analyser's import table (skipping
type-only named specifiers). -/
def visitImportDecl (isTs : Bool) (st : VisitState) (src : String)
    (typeOnly : Bool) (specifiers : List ImportSpecifier) : VisitState :=
  let st := { st with references :=
      st.references ++ [.esm (Pattern.ofString src) isTs] }
  if typeOnly then st
  else specifiers.foldl (recordImportSpecifier src) st

/-- Visitor method `visit_var_declarator` (lines 845–870): a top-level
`var __webpack_require__ = require("<string literal>")` records the runtime
marker `(request, call span)` and is not traversed further; any other
declarator is traversed as usual. -/
def visitVarDeclarator (st : VisitState) (d : VarDeclarator) : VisitState :=
  match d.name, d.init with
  | some "__webpack_require__",
    some (.callExpr (some (.ident "require"))
      [.mk false (.lit (.str s))] span) =>
      { st with webpackRuntime := some (s, span) }
  | _, _ =>
      match d.init with
      | some e => visitExpr st e
      | none => st

/-- Dispatch one module item through the visitor. -/
def visitModuleItem (isTs : Bool) (st : VisitState) : ModuleItem → VisitState
  | .importDecl src tOnly specs => visitImportDecl isTs st src tOnly specs
  | .exportAll src =>
      { st with references :=
          st.references ++ [.esm (Pattern.ofString src) isTs] }
  | .namedExport (some src) =>
      { st with references :=
          st.references ++ [.esm (Pattern.ofString src) isTs] }
  | .namedExport none => st
  | .varDecl decls => decls.foldl visitVarDeclarator st
  | .exprStmt e => visitExpr st e
  | .otherItem => st

/-- The pass `program.visit_with(&mut visitor)`: the single source-ordered pass. -/
def visitProgram (isTs : Bool) (st : VisitState)
    (items : List ModuleItem) : VisitState :=
  items.foldl (visitModuleItem isTs) st

/-! ## The value visitor (`value_visitor` / `value_visitor_inner`) -/

/-- The type `ResolveResult` from the resolver contract (§6).  Assets are modelled
by their paths. -/
inductive ResolveResult where
  | single (asset : String) (refs : List AssetReference)
  | alternatives (assets : List String) (refs : List AssetReference)
  | unresolveable
deriving DecidableEq, Repr

/-- Modelled from the spec: `FileSystemPath::parent` — drop the last `/`
separated component. -/
def pathParent (p : String) : String :=
  String.intercalate "/" (p.splitOn "/").dropLast

/-- Function `as_abs_path` (line 585): encode a file path as the string constant
`/ROOT/<path>`. -/
def as_abs_path (path : String) : JsValue :=
  .constant (.str ("/ROOT/" ++ path))

/-- The type `CompileTarget`, opaque to the engine (passed through to the well-known
lowering only). -/
structure CompileTarget where
  id : Nat
deriving DecidableEq, Repr

/-- Modelled from the spec: `replace_well_known` applies the structural
well-known reductions of §4.4 rule 10 (such as lowering `path.join` on the
path module); unmatched values are returned unmodified. -/
def replace_well_known (v : JsValue) (_target : CompileTarget) :
    JsValue × Bool :=
  match v with
  | .member (.wellKnownObject .pathModule) (.constant (.str "join")) =>
      (.wellKnownFunction .pathJoin, true)
  | _ => (v, false)

/-- Modelled from the spec: `replace_builtin` applies builtin reductions
such as indexing an array literal by a constant non-negative integer. -/
def replace_builtin (v : JsValue) : JsValue × Bool :=
  match v with
  | .member (.array items) (.constant (.num n)) =>
      if h : 0 ≤ n ∧ n.toNat < items.length then
        (items.get ⟨n.toNat, h.2⟩, true)
      else (v, false)
  | _ => (v, false)

/-- Collapse runs of adjacent string constants in a part list. -/
def collapseStrRun : List JsValue → List JsValue
  | [] => []
  | .constant (.str a) :: .constant (.str b) :: rest =>
      collapseStrRun (.constant (.str (a ++ b)) :: rest)
  | x :: rest => x :: collapseStrRun rest
termination_by l => l.length
decreasing_by
  all_goals simp only [List.length_cons]
  all_goals omega

/-- Modelled from the spec: `normalize_shallow` applies the §3 invariants
to one node: nested alternatives are flattened and deduplicated with
singleton collapse, and concatenations of adjacent constants collapse. -/
def JsValue.normalize_shallow (v : JsValue) : JsValue :=
  match v with
  | .alternatives vs => JsValue.alternativesC vs
  | .concat parts =>
      match collapseStrRun parts with
      | [x] => x
      | l => .concat l
  | .add parts =>
      match collapseStrRun parts with
      | [x] => x
      | l => .add l
  | v => v

/-- The external context consulted by `value_visitor_inner`: the analyzed
module's path and the CJS resolver behind `require.resolve` lowering. -/
structure ValueVisitorEnv where
  sourcePath : String
  cjsResolve : Pattern → ResolveResult

/-- Function `value_visitor_inner` (lines 599–682): the well-known lowering visitor.
Every handled shape returns `(replacement, true)`; the fallthrough defers
to `replace_well_known` and `replace_builtin`. -/
def value_visitor_inner (env : ValueVisitorEnv) (v : JsValue)
    (target : CompileTarget) : JsValue × Bool :=
  match v with
  | .call (.wellKnownFunction .requireResolve) args =>
      if args.length = 1 then
        let pat := js_value_to_pattern args.headI
        match env.cjsResolve pat with
        | .single asset _ => (as_abs_path asset, true)
        | .alternatives assets _ =>
            (JsValue.alternativesC (assets.map as_abs_path), true)
        | .unresolveable =>
            (.unknown
              (some (.call (.wellKnownFunction .requireResolve) args))
              ("unresolveable request " ++ pat.toDisplay), true)
      else
        (.unknown (some (.call (.wellKnownFunction .requireResolve) args))
          "only a single argument is supported", true)
  | .freeVar .dirname => (as_abs_path (pathParent env.sourcePath), true)
  | .freeVar .filename => (as_abs_path env.sourcePath, true)
  | .freeVar .require => (.wellKnownFunction .require, true)
  | .freeVar .import => (.wellKnownFunction .import, true)
  | .freeVar .nodeProcess => (.wellKnownObject .nodeProcess, true)
  | .freeVar k => (.unknown (some (.freeVar k)) "unknown global", true)
  | .module name =>
      let lowered :=
        match name with
        | "path" => JsValue.wellKnownObject .pathModule
        | "fs/promises" => JsValue.wellKnownObject .fsModule
        | "fs" => JsValue.wellKnownObject .fsModule
        | "child_process" => JsValue.wellKnownObject .childProcess
        | "os" => JsValue.wellKnownObject .osModule
        | "process" => JsValue.wellKnownObject .nodeProcess
        | _ =>
            JsValue.unknown (some (.module name))
              "cross module analyzing is not yet supported"
      (lowered, true)
  | .argument i =>
      (.unknown (some (.argument i))
        "cross function analyzing is not yet supported", true)
  | _ =>
      let (v1, m1) := replace_well_known v target
      let (v2, m2) := replace_builtin v1
      (v2, m1 || m2)

/-- Function `value_visitor` (lines 589–597): run the inner visitor, then shallowly
normalize the result. -/
def value_visitor (env : ValueVisitorEnv) (v : JsValue)
    (target : CompileTarget) : JsValue × Bool :=
  let r := value_visitor_inner env v target
  (r.1.normalize_shallow, r.2)

/-! ## Webpack reference records (`webpack/mod.rs`) -/

/-- The type `WebpackRuntime` from `webpack/parse.rs` (not among the source files):
either a confirmed webpack-5 runtime with its context path, or no runtime.
The `chunk_request_expr` field is opaque to the source under study and is
omitted. -/
inductive WebpackRuntime where
  | webpack5 (context_path : String)
  | none
deriving DecidableEq, Repr

/-- Modelled from the spec: `FileSystemPath::join`, resolving a leading
`./` segment of the joined name against the base path. -/
def fsPathJoin (base fname : String) : String :=
  if "./".isPrefixOf fname then base ++ "/" ++ fname.drop 2
  else base ++ "/" ++ fname

/-- Method `WebpackChunkAssetReference::resolve_reference` (webpack/mod.rs lines
73–97): under a webpack-5 runtime, a string or number chunk id maps to the
single asset at `./chunks/<id>.js` under the runtime's context path (the
wrapping into a webpack module asset is represented by the asset path);
under no runtime the reference is unresolvable.  The `todo!()` arm for any
other literal is modelled as `none` (a panic). -/
def webpackChunkResolveReference (chunk_id : Lit)
    (runtime : WebpackRuntime) : Option ResolveResult :=
  match runtime with
  | .webpack5 context_path =>
      match chunk_id with
      | .str s =>
          let filename := "./chunks/" ++ s ++ ".js"
          some (.single (fsPathJoin context_path filename) [])
      | .num n =>
          let filename := "./chunks/" ++ toString n ++ ".js"
          some (.single (fsPathJoin context_path filename) [])
      | _ => Option.none
  | .none => some .unresolveable

/-! ## The analysis pipeline (`module_references`) -/

/-- The type `FindContextFileResult` from the resolver contract. -/
inductive FindContextFileResult where
  | found (path : String)
  | notFound
deriving DecidableEq, Repr

/-- The type `ModuleAssetType`. -/
inductive ModuleAssetType where
  | ecmascript
  | typescript
  | typescriptDeclaration
deriving DecidableEq, Repr

/-- swc `CommentKind`. -/
inductive CommentKind where
  | line
  | block
deriving DecidableEq, Repr

/-- The effects of the variable graph. -/
inductive Effect where
  | call (func : JsValue) (args : List JsValue) (span : Nat)
  | memberCall (obj : JsValue) (prop : JsValue) (args : List JsValue)
      (span : Nat)

/-- The source span of an effect. -/
def Effect.span : Effect → Nat
  | .call _ _ s => s
  | .memberCall _ _ _ s => s

/-- The type `ParseResult` from the parser contract.  The `Ok` payload keeps the
program items and the leading line comments at the program start (globals,
eval context and source map are runtime plumbing with no bearing on the
emitted references). -/
inductive ParseResult where
  | ok (program : List ModuleItem)
      (leadingComments : List (CommentKind × String))
  | unparseable
  | notFound

/-- Regex character class `\s` (ASCII portion). -/
def isRegexWS (c : Char) : Bool :=
  c == ' ' || c == '\t' || c == '\n' || c == '\r'

/-- Drop leading regex whitespace. -/
def dropWS (l : List Char) : List Char := l.dropWhile isRegexWS

/-- Consume an exact literal from the front of a character list. -/
def stripLit (lit : String) (l : List Char) : Option (List Char) :=
  if lit.toList.isPrefixOf l then some (l.drop lit.toList.length)
  else Option.none

/-- The `REFERENCE_PATH` / `REFERENCE_TYPES` regex
`^/\s*<reference\s*<key>\s*=\s*["'](.+)["']\s*/>\s*$` (lines 106–115),
as a direct matcher.  The greedy `(.+)` capture runs to the last quote that
is followed only by whitespace, `/>` and trailing whitespace; it must be
non-empty and may not contain a newline. -/
def matchReference (key : String) (text : String) : Option String :=
  match stripLit "/" text.toList with
  | Option.none => Option.none
  | some l1 =>
    match stripLit "<reference" (dropWS l1) with
    | Option.none => Option.none
    | some l2 =>
      match stripLit key (dropWS l2) with
      | Option.none => Option.none
      | some l3 =>
        match stripLit "=" (dropWS l3) with
        | Option.none => Option.none
        | some l4 =>
          match dropWS l4 with
          | [] => Option.none
          | q :: rest =>
            if q == '"' || q == '\'' then
              match stripLit ">/" (dropWS rest.reverse) with
              | Option.none => Option.none
              | some r1 =>
                match dropWS r1 with
                | [] => Option.none
                | q2 :: mid =>
                  if q2 == '"' || q2 == '\'' then
                    let capture := mid.reverse
                    if capture.length ≥ 1 &&
                        capture.all (fun c => c ≠ '\n') then
                      some (String.mk capture)
                    else Option.none
                  else Option.none
            else Option.none

/-- The leading-comment handling of `module_references` (lines 100–141):
a line comment matching `REFERENCE_PATH` produces a `TsReferencePath`
record, otherwise one matching `REFERENCE_TYPES` produces a
`TsReferenceType` record. -/
def tsRefOfComment : CommentKind × String → Option AssetReference
  | (.line, text) =>
      match matchReference "path" text with
      | some p => some (.tsReferencePath p)
      | Option.none =>
          match matchReference "types" text with
          | some t => some (.tsReferenceType t)
          | Option.none => Option.none
  | (.block, _) => Option.none

/-- The external collaborators of `module_references` together with the
parts of the pipeline living outside the two source files: context-file
discovery, the opaque `special_cases` pushes, the parser output, the
resolver used on the webpack runtime request, the `is_webpack_runtime`
predicate, the variable graph's effect list (`create_graph` is external)
and the linker closure (`link` with `value_visitor` is external). -/
structure AnalysisEnv where
  findPackageJson : FindContextFileResult
  findTsConfig : FindContextFileResult
  specialRefs : List AssetReference
  parsed : ParseResult
  resolveRequest : String → ResolveResult
  isWebpackRuntime : String → WebpackRuntime
  effects : List Effect
  linkValue : JsValue → JsValue

/-- Function `resolve_as_webpack_runtime` (lines 910–926): resolve the request with
CJS-specific options; a single resolution is tested with
`is_webpack_runtime`, anything else is no runtime. -/
def resolve_as_webpack_runtime (env : AnalysisEnv) (request : String) :
    WebpackRuntime :=
  match env.resolveRequest request with
  | .single source _ => env.isWebpackRuntime source
  | _ => WebpackRuntime.none

/-- The effect loop of `module_references` (lines 517–574): an effect whose
span equals the suppression span is skipped; otherwise the callee is linked
(for a member call, the object first, then the member) and dispatched to
`handle_call`.  Returns the references and diagnostics emitted, in order. -/
def processEffects (linkValue : JsValue → JsValue) (isTs : Bool)
    (ignoreSpan : Option Nat) :
    List Effect → List AssetReference × List Diagnostic
  | [] => ([], [])
  | e :: rest =>
      let skip :=
        match ignoreSpan with
        | some sp => sp == e.span
        | Option.none => false
      let here :=
        if skip then ([], [])
        else
          match e with
          | .call func args span =>
              let f := linkValue func
              handle_call span f (.unknown Option.none "no this provided")
                args linkValue isTs
          | .memberCall obj prop args span =>
              let o := linkValue obj
              let f := linkValue (.member o prop)
              handle_call span f o args linkValue isTs
      let restR := processEffects linkValue isTs ignoreSpan rest
      (here.1 ++ restR.1, here.2 ++ restR.2)

/-- The initial visitor state over a given shared reference list
(`AssetReferencesVisitor::new`). -/
def initVisitState (refs : List AssetReference) : VisitState :=
  ⟨refs, [], Option.none, false, []⟩

/-- Function `module_references` (lines 58–583): the full analysis pipeline for one
module.  Returns the reference list handed to the caller and the
diagnostics raised while handling effects, in order. -/
def module_references (env : AnalysisEnv) (ty : ModuleAssetType) :
    List AssetReference × List Diagnostic :=
  let references :=
    match env.findPackageJson with
    | .found package_json => [AssetReference.packageJson package_json]
    | .notFound => []
  let is_typescript :=
    match ty with
    | .typescript | .typescriptDeclaration => true
    | .ecmascript => false
  let references :=
    references ++
      (if is_typescript then
        match env.findTsConfig with
        | .found tsconfig => [AssetReference.tsConfig tsconfig]
        | .notFound => []
      else [])
  let references := references ++ env.specialRefs
  match env.parsed with
  | .unparseable => (references, [])
  | .notFound => (references, [])
  | .ok program leadingComments =>
      let references :=
        references ++
          (if is_typescript then leadingComments.filterMap tsRefOfComment
           else [])
      let vs := visitProgram is_typescript (initVisitState references) program
      let afterWebpack :=
        match vs.webpackRuntime with
        | some (request, span) =>
            match resolve_as_webpack_runtime env request with
            | .webpack5 _ =>
                (some span,
                 vs.references ++
                   [AssetReference.webpackRuntime request] ++
                   (if vs.webpackEntry then [AssetReference.webpackEntry]
                    else []) ++
                   vs.webpackChunks.map AssetReference.webpackChunk)
            | WebpackRuntime.none => (Option.none, vs.references)
        | Option.none => (Option.none, vs.references)
      let er := processEffects env.linkValue is_typescript afterWebpack.1
        env.effects
      (afterWebpack.2 ++ er.1, er.2)

/-! ## Pipeline segments

The following definitions name the pieces of `module_references`' output
list; the decomposition theorems below relate them to the pipeline. -/

/-- The `is_typescript` flag computed at the top of `module_references`. -/
def isTypescriptOf : ModuleAssetType → Bool
  | .typescript | .typescriptDeclaration => true
  | .ecmascript => false

/-- The references gathered before the parse result is inspected:
package.json, tsconfig.json (typescript only) and the `special_cases`
pushes. -/
def preParseRefs (env : AnalysisEnv) (ty : ModuleAssetType) :
    List AssetReference :=
  (match env.findPackageJson with
   | .found package_json => [AssetReference.packageJson package_json]
   | .notFound => []) ++
  (if isTypescriptOf ty then
    match env.findTsConfig with
    | .found tsconfig => [AssetReference.tsConfig tsconfig]
    | .notFound => []
  else []) ++
  env.specialRefs

/-- The triple-slash reference records extracted from the leading
comments (typescript only). -/
def tsSlashRefs (ty : ModuleAssetType)
    (lc : List (CommentKind × String)) : List AssetReference :=
  if isTypescriptOf ty then lc.filterMap tsRefOfComment else []

/-- The visitor state after the syntactic pass of `module_references` on a
successfully parsed program. -/
def pipelineVisitState (env : AnalysisEnv) (ty : ModuleAssetType)
    (program : List ModuleItem) (lc : List (CommentKind × String)) :
    VisitState :=
  visitProgram (isTypescriptOf ty)
    (initVisitState (preParseRefs env ty ++ tsSlashRefs ty lc)) program

/-- The webpack-runtime handling of `module_references` (lines 165–202):
the effect-suppression span and the webpack runtime/entry/chunk
references. -/
def webpackSegment (vs : VisitState) (env : AnalysisEnv) :
    Option Nat × List AssetReference :=
  match vs.webpackRuntime with
  | some (request, span) =>
      match resolve_as_webpack_runtime env request with
      | .webpack5 _ =>
          (some span,
           [AssetReference.webpackRuntime request] ++
             (if vs.webpackEntry then [AssetReference.webpackEntry]
              else []) ++
             vs.webpackChunks.map AssetReference.webpackChunk)
      | WebpackRuntime.none => (Option.none, [])
  | Option.none => (Option.none, [])

/-- Prepend references onto a visitor state (the shared `references` vector
already holds the direct references when the visitor starts). -/
def prependRefs (r0 : List AssetReference) (s : VisitState) : VisitState :=
  { s with references := r0 ++ s.references }

/-- The reference kind emitted for the three dynamic forms: ESM for
`import()`, CJS for `require` and `require.resolve`. -/
def dynamicRefKind (k : WellKnownFunctionKind) (pat : Pattern)
    (ts : Bool) : AssetReference :=
  match k with
  | .import => .esm pat ts
  | _ => .cjs pat ts

/-- The diagnostic code for the three dynamic forms. -/
def dynamicCode : WellKnownFunctionKind → String
  | .import => DYNAMIC_IMPORT
  | .require => REQUIRE
  | .requireResolve => REQUIRE_RESOLVE
  | _ => ""

/-- The display name of the three dynamic forms in diagnostics. -/
def dynamicVerb : WellKnownFunctionKind → String
  | .import => "import"
  | .require => "require"
  | .requireResolve => "require.resolve"
  | _ => ""

/-- The entry/chunk contribution of one call expression, as a function of
the import table only (mirrors the match structure of
`webpackCallHandler`): whether the entry flag is set and which chunk ids
are appended. -/
def webpackCallDelta (imports : ImportMap) (callee : Option Expr)
    (args : List ExprArg) : Bool × List Lit :=
  match callee with
  | some e =>
      match evaluate_expr imports e with
      | .freeVar [webpack_require, property] =>
          if webpack_require == "__webpack_require__" && property == "C" then
            (true, [])
          else if webpack_require == "__webpack_require__" &&
              property == "X" then
            match args with
            | [_, .mk false chunk_ids, _] =>
                match chunk_ids with
                | .array elems => (false, collectChunkLits elems)
                | _ => (false, [])
            | _ => (false, [])
          else (false, [])
      | _ => (false, [])
  | Option.none => (false, [])

/-! ## Theorems -/

/-- C9: a `require.resolve` call with zero arguments is lowered by the
value visitor to `Unknown` with reason "only a single argument is
supported" — the same outcome as any argument count other than one — and
the resolver is never consulted (the result is independent of the
environment). -/
theorem requireResolve_zero_args_lowered_to_unknown
    (env : ValueVisitorEnv) (target : CompileTarget) :
    value_visitor_inner env
        (.call (.wellKnownFunction .requireResolve) []) target =
      (.unknown (some (.call (.wellKnownFunction .requireResolve) []))
        "only a single argument is supported", true) ∧
    ∀ a b : JsValue,
      value_visitor_inner env
          (.call (.wellKnownFunction .requireResolve) [a, b]) target =
        (.unknown (some (.call (.wellKnownFunction .requireResolve) [a, b]))
          "only a single argument is supported", true) := by
  constructor
  · rfl
  · intro a b
    rfl

/-- C3: a call effect whose fully linked callee is `Import`, `Require` or
`RequireResolve`, with exactly one argument whose derived pattern has
constant parts, makes the handler emit exactly one reference of the
corresponding kind (ESM for `Import`, CJS otherwise) and raise no
diagnostic. -/
theorem dynamic_form_arity_one_constant_emits_one_reference
    (span : Nat) (this_ a : JsValue) (link_value : JsValue → JsValue)
    (ts : Bool) (k : WellKnownFunctionKind)
    (hk : k = .import ∨ k = .require ∨ k = .requireResolve)
    (hc : (js_value_to_pattern (link_value a)).has_constant_parts = true) :
    handle_call span (.wellKnownFunction k) this_ [a] link_value ts =
      ([dynamicRefKind k (js_value_to_pattern (link_value a)) ts], []) := by
  rcases hk with h | h | h <;> subst h <;>
    simp [handle_call, dynamicRefKind, List.headI, hc]

/-- Witness for C3 at a concrete input (`require("./a")`). -/
theorem dynamic_form_arity_one_constant_emits_one_reference_witness :
    (js_value_to_pattern (id (JsValue.constant (.str "./a")))).has_constant_parts
        = true ∧
    handle_call 0 (.wellKnownFunction .require) (.unknown Option.none "w")
        [.constant (.str "./a")] id false =
      ([dynamicRefKind .require
          (js_value_to_pattern (id (JsValue.constant (.str "./a")))) false],
       []) := by
  have hc : (js_value_to_pattern
      (id (JsValue.constant (.str "./a")))).has_constant_parts = true := by
    simp [js_value_to_pattern, Pattern.has_constant_parts, Pattern.parts]
  exact ⟨hc,
    dynamic_form_arity_one_constant_emits_one_reference 0
      (.unknown Option.none "w") (.constant (.str "./a")) id false .require
      (Or.inr (Or.inl rfl)) hc⟩

/-- C4: a call effect whose fully linked callee is `Import`, `Require` or
`RequireResolve` with argument count different from one emits no reference
and raises exactly one error-severity diagnostic with the corresponding
code. -/
theorem dynamic_form_wrong_arity_one_error_diagnostic
    (span : Nat) (this_ : JsValue) (args : List JsValue)
    (link_value : JsValue → JsValue) (ts : Bool)
    (k : WellKnownFunctionKind)
    (hk : k = .import ∨ k = .require ∨ k = .requireResolve)
    (hn : args.length ≠ 1) :
    handle_call span (.wellKnownFunction k) this_ args link_value ts =
      ([],
       [⟨.error, span, dynamicCode k,
         dynamicVerb k ++ "(" ++ (explain_args (args.map link_value)).1 ++
           ") is not statically analyse-able" ++
           (explain_args (args.map link_value)).2⟩]) := by
  rcases hk with h | h | h <;> subst h <;>
    simp [handle_call, dynamicCode, dynamicVerb, hn]

/-- Witness for C4 at the concrete input of scenario S3
(`require.resolve("foo", otherArg)`). -/
theorem dynamic_form_wrong_arity_one_error_diagnostic_witness :
    ([JsValue.constant (.str "foo"), .freeVar (.other "otherArg")].length ≠ 1) ∧
    handle_call 7 (.wellKnownFunction .requireResolve)
        (.unknown Option.none "w")
        [.constant (.str "foo"), .freeVar (.other "otherArg")] id false =
      ([],
       [⟨.error, 7, dynamicCode .requireResolve,
         dynamicVerb .requireResolve ++ "(" ++
           (explain_args ([JsValue.constant (.str "foo"),
             .freeVar (.other "otherArg")].map id)).1 ++
           ") is not statically analyse-able" ++
           (explain_args ([JsValue.constant (.str "foo"),
             .freeVar (.other "otherArg")].map id)).2⟩]) :=
  ⟨by decide,
   dynamic_form_wrong_arity_one_error_diagnostic 7 (.unknown Option.none "w")
     [.constant (.str "foo"), .freeVar (.other "otherArg")] id false
     .requireResolve (Or.inr (Or.inr rfl)) (by decide)⟩

/-- C8: a call whose linked callee is `ChildProcessSpawnMethod(name)` with
at least one argument emits, when the first argument's pattern matches
"node" and there are at least two arguments, a CJS reference built from the
linked element 0 of the second argument — and in every case a raw-pattern
`SourceAssetReference` for the first argument. -/
theorem spawn_emits_cjs_for_node_and_raw_for_argv0
    (span : Nat) (this_ : JsValue) (args : List JsValue)
    (link_value : JsValue → JsValue) (ts : Bool) (name : String)
    (h1 : 1 ≤ args.length) :
    (handle_call span
        (.wellKnownFunction (.childProcessSpawnMethod name)) this_ args
        link_value ts).1 =
      (if (js_value_to_pattern ((args.map link_value).headI)).is_match "node"
          ∧ 2 ≤ args.length then
        [AssetReference.cjs
          (js_value_to_pattern (link_value
            (.member ((args.map link_value).getD 1 default)
              (.constant (.num 0))))) ts]
      else []) ++
      [AssetReference.sourceAsset
        (js_value_to_pattern ((args.map link_value).headI))] := by
  simp only [handle_call, List.length_map]
  rw [if_pos h1]
  split <;> simp_all

/-- Witness for C8: `spawn("node", ["./child.js"])` with the identity
linker. -/
theorem spawn_emits_cjs_for_node_and_raw_for_argv0_witness :
    (1 ≤ ([JsValue.constant (.str "node"),
        .array [.constant (.str "./child.js")]] : List JsValue).length) ∧
    (handle_call 3
        (.wellKnownFunction (.childProcessSpawnMethod "spawn"))
        (.unknown Option.none "w")
        [.constant (.str "node"), .array [.constant (.str "./child.js")]]
        id false).1 =
      (if (js_value_to_pattern
            (([JsValue.constant (.str "node"),
              .array [.constant (.str "./child.js")]].map id).headI)).is_match
            "node"
          ∧ 2 ≤ ([JsValue.constant (.str "node"),
              .array [.constant (.str "./child.js")]] : List JsValue).length
        then
        [AssetReference.cjs
          (js_value_to_pattern (id
            (.member (([JsValue.constant (.str "node"),
                .array [.constant (.str "./child.js")]].map id).getD 1 default)
              (.constant (.num 0))))) false]
      else []) ++
      [AssetReference.sourceAsset
        (js_value_to_pattern
          (([JsValue.constant (.str "node"),
            .array [.constant (.str "./child.js")]].map id).headI))] :=
  ⟨by decide,
   spawn_emits_cjs_for_node_and_raw_for_argv0 3 (.unknown Option.none "w")
     [.constant (.str "node"), .array [.constant (.str "./child.js")]]
     id false "spawn" (by decide)⟩

/-- The function `recordImportSpecifier` never touches the shared reference list. -/
theorem recordImportSpecifier_references (src : String) (s : VisitState)
    (spec : ImportSpecifier) :
    (recordImportSpecifier src s spec).references = s.references := by
  cases spec with
  | named localName imported tOnly =>
      simp only [recordImportSpecifier]
      split <;> rfl
  | defaultSpecifier localName => rfl
  | namespaceSpecifier localName => rfl

/-- The specifier fold of `visit_import_decl` never touches the shared
reference list. -/
theorem importSpecFold_references (src : String)
    (specs : List ImportSpecifier) :
    ∀ s : VisitState,
      (specs.foldl (recordImportSpecifier src) s).references =
        s.references := by
  induction specs with
  | nil => intro s; rfl
  | cons a l ih =>
      intro s
      rw [List.foldl_cons, ih, recordImportSpecifier_references]

/-- C10: every import declaration — type-only included — makes the
syntactic visitor emit an `EsmAssetReference` with the literal specifier;
the `type_only` flag only prevents recording bindings in the import table,
not the reference emission. -/
theorem import_decl_always_emits_esm_reference (isTs : Bool)
    (st : VisitState) (src : String) (typeOnly : Bool)
    (specifiers : List ImportSpecifier) :
    (visitImportDecl isTs st src typeOnly specifiers).references =
      st.references ++ [.esm (Pattern.ofString src) isTs] ∧
    (typeOnly = true →
      (visitImportDecl isTs st src typeOnly specifiers).imports =
        st.imports) := by
  constructor
  · unfold visitImportDecl
    cases typeOnly with
    | true => rfl
    | false =>
        simp only [Bool.false_eq_true, if_false]
        rw [importSpecFold_references]
  · intro h
    subst h
    rfl

/-- Witness for C10: a type-only import still emits the ESM reference and
leaves the import table unchanged. -/
theorem import_decl_always_emits_esm_reference_witness :
    (visitImportDecl true (initVisitState []) "x" true
        [.named "A" Option.none false]).references =
      (initVisitState []).references ++ [.esm (Pattern.ofString "x") true] ∧
    (visitImportDecl true (initVisitState []) "x" true
        [.named "A" Option.none false]).imports =
      (initVisitState []).imports :=
  ⟨(import_decl_always_emits_esm_reference true (initVisitState []) "x" true
      [.named "A" Option.none false]).1,
   (import_decl_always_emits_esm_reference true (initVisitState []) "x" true
      [.named "A" Option.none false]).2 rfl⟩

/-- C6 (counterexample): the visitor collects *any* literal element of a
webpack chunk array — here the boolean literal `true` — and on such a chunk
id `resolve_reference` reaches the unimplemented (`todo!()`) arm, so the
arm is not unreachable. -/
theorem webpack_chunk_todo_arm_reachable :
    (webpackCallHandler (initVisitState [])
        (some (.memberIdent (.ident "__webpack_require__") "X"))
        [.mk false (.lit (.num 0)),
         .mk false (.array [.elem false (.lit (.bool true))]),
         .mk false .otherExpr]).webpackChunks = [Lit.bool true] ∧
    webpackChunkResolveReference (Lit.bool true) (.webpack5 "ctx") =
      Option.none :=
  ⟨rfl, rfl⟩

/-- C6 (amended): `resolve_reference` of a webpack chunk reference returns
the single asset `./chunks/<id>.js` under the runtime's context path for
string and number literal chunk ids with a webpack-5 runtime, and
`Unresolveable` when the runtime is `None`; for any other literal kind the
unimplemented arm is reached (it is reachable, since the visitor collects
every literal element). -/
theorem webpack_chunk_resolve_reference_cases (ctx : String) :
    (∀ chunkId, webpackChunkResolveReference chunkId WebpackRuntime.none =
        some .unresolveable) ∧
    (∀ s, webpackChunkResolveReference (.str s) (.webpack5 ctx) =
        some (.single (fsPathJoin ctx ("./chunks/" ++ s ++ ".js")) [])) ∧
    (∀ n : Int, webpackChunkResolveReference (.num n) (.webpack5 ctx) =
        some (.single (fsPathJoin ctx ("./chunks/" ++ toString n ++ ".js"))
          [])) :=
  ⟨fun _ => rfl, fun _ => rfl, fun _ => rfl⟩

/-- C1 (counterexample): on an `Unparseable` parse result the reference
list is *not* empty in general — the package.json reference found before
parsing is still returned. -/
theorem unparseable_nonempty_counterexample :
    (module_references
      { findPackageJson := .found "package.json"
        findTsConfig := .notFound
        specialRefs := []
        parsed := .unparseable
        resolveRequest := fun _ => .unresolveable
        isWebpackRuntime := fun _ => WebpackRuntime.none
        effects := []
        linkValue := id } .ecmascript) =
      ([AssetReference.packageJson "package.json"], []) ∧
    ([AssetReference.packageJson "package.json"] : List AssetReference) ≠
      [] := by
  exact ⟨rfl, by simp⟩

/-- C1 (amended): on `Unparseable` or `NotFound`, `module_references`
returns exactly the references gathered before parsing (package.json,
tsconfig.json, special cases) — in particular the empty list when there
are none — and raises no diagnostics. -/
theorem unparseable_returns_only_preparse_refs (env : AnalysisEnv)
    (ty : ModuleAssetType)
    (h : env.parsed = .unparseable ∨ env.parsed = .notFound) :
    module_references env ty = (preParseRefs env ty, []) := by
  obtain ⟨fp, ft, sr, parsed, rr, iw, eff, lv⟩ := env
  simp only at h
  rcases h with h | h <;> subst h <;> rfl

/-- Witness for C1's amended statement: an environment with no pre-parse
references and an unparseable module returns the empty list. -/
theorem unparseable_returns_only_preparse_refs_witness :
    ((ParseResult.unparseable = ParseResult.unparseable ∨
        ParseResult.unparseable = ParseResult.notFound) ∧
     module_references
        { findPackageJson := .notFound
          findTsConfig := .notFound
          specialRefs := []
          parsed := .unparseable
          resolveRequest := fun _ => .unresolveable
          isWebpackRuntime := fun _ => WebpackRuntime.none
          effects := []
          linkValue := id } .typescript =
      (preParseRefs
        { findPackageJson := .notFound
          findTsConfig := .notFound
          specialRefs := []
          parsed := .unparseable
          resolveRequest := fun _ => .unresolveable
          isWebpackRuntime := fun _ => WebpackRuntime.none
          effects := []
          linkValue := id } .typescript, [])) :=
  ⟨Or.inl rfl,
   unparseable_returns_only_preparse_refs _ .typescript (Or.inl rfl)⟩

/-- Decomposition of `module_references` on a successfully parsed module:
the output is the visitor's reference list (which starts from the direct
references), followed by the webpack segment, followed by the
effect-derived references; the diagnostics are those of the effect loop. -/
theorem module_references_ok_decomposition (env : AnalysisEnv)
    (ty : ModuleAssetType) (program : List ModuleItem)
    (lc : List (CommentKind × String)) (hp : env.parsed = .ok program lc) :
    module_references env ty =
      ((pipelineVisitState env ty program lc).references ++
        (webpackSegment (pipelineVisitState env ty program lc) env).2 ++
        (processEffects env.linkValue (isTypescriptOf ty)
          (webpackSegment (pipelineVisitState env ty program lc) env).1
          env.effects).1,
       (processEffects env.linkValue (isTypescriptOf ty)
          (webpackSegment (pipelineVisitState env ty program lc) env).1
          env.effects).2) := by
  simp only [module_references, hp, pipelineVisitState, webpackSegment,
    preParseRefs, tsSlashRefs, isTypescriptOf, initVisitState]
  split
  next request span heq =>
    simp only [heq]
    split
    next ctx heq2 =>
      simp only [heq2, List.append_assoc]
    next heq2 =>
      simp only [heq2, List.append_nil]
  next heq =>
    simp only [heq, List.append_nil]

/-- The function `webpackCallHandler` only ever appends chunk ids and raises the entry
flag; the contribution depends on the state only through the import
table. -/
theorem webpackCallHandler_spec (st : VisitState) (callee : Option Expr)
    (args : List ExprArg) :
    webpackCallHandler st callee args =
      { st with
        webpackEntry :=
          st.webpackEntry || (webpackCallDelta st.imports callee args).1,
        webpackChunks :=
          st.webpackChunks ++ (webpackCallDelta st.imports callee args).2 } := by
  unfold webpackCallHandler webpackCallDelta
  repeat' split
  all_goals simp

/-- The function `webpackCallHandler` commutes with prepending references. -/
theorem webpackCallHandler_prepend (r0 : List AssetReference)
    (st : VisitState) (callee : Option Expr) (args : List ExprArg) :
    webpackCallHandler (prependRefs r0 st) callee args =
      prependRefs r0 (webpackCallHandler st callee args) := by
  rw [webpackCallHandler_spec, webpackCallHandler_spec]
  rfl

mutual

/-- The expression traversal commutes with prepending references. -/
theorem visitExpr_prepend (r0 : List AssetReference) (st : VisitState)
    (x : Expr) :
    visitExpr (prependRefs r0 st) x = prependRefs r0 (visitExpr st x) := by
  cases x with
  | lit l => rfl
  | ident s => rfl
  | memberIdent obj name =>
      simp only [visitExpr]
      exact visitExpr_prepend r0 st obj
  | memberPrivateName obj =>
      simp only [visitExpr]
      exact visitExpr_prepend r0 st obj
  | memberComputed obj propExpr =>
      simp only [visitExpr]
      rw [visitExpr_prepend r0 st obj]
      exact visitExpr_prepend r0 (visitExpr st obj) propExpr
  | array elems =>
      simp only [visitExpr]
      exact visitElems_prepend r0 st elems
  | callExpr callee args span =>
      cases callee with
      | none =>
          simp only [visitExpr]
          rw [webpackCallHandler_prepend]
          exact visitArgs_prepend r0 _ args
      | some e =>
          simp only [visitExpr]
          rw [webpackCallHandler_prepend, visitExpr_prepend r0 _ e]
          exact visitArgs_prepend r0 _ args
  | otherExpr => rfl
termination_by sizeOf x

/-- The array-element traversal commutes with prepending references. -/
theorem visitElems_prepend (r0 : List AssetReference) (st : VisitState)
    (l : List ArrayElem) :
    visitElems (prependRefs r0 st) l = prependRefs r0 (visitElems st l) := by
  cases l with
  | nil => rfl
  | cons a rest =>
      cases a with
      | hole =>
          simp only [visitElems]
          exact visitElems_prepend r0 st rest
      | elem sp e =>
          simp only [visitElems]
          rw [visitExpr_prepend r0 st e]
          exact visitElems_prepend r0 (visitExpr st e) rest
termination_by sizeOf l

/-- The argument traversal commutes with prepending references. -/
theorem visitArgs_prepend (r0 : List AssetReference) (st : VisitState)
    (l : List ExprArg) :
    visitArgs (prependRefs r0 st) l = prependRefs r0 (visitArgs st l) := by
  cases l with
  | nil => rfl
  | cons a rest =>
      cases a with
      | mk sp e =>
          simp only [visitArgs]
          rw [visitExpr_prepend r0 st e]
          exact visitArgs_prepend r0 (visitExpr st e) rest
termination_by sizeOf l

end

/-- Recording an import specifier commutes with prepending references. -/
theorem recordImportSpecifier_prepend (r0 : List AssetReference)
    (src : String) (s : VisitState) (spec : ImportSpecifier) :
    recordImportSpecifier src (prependRefs r0 s) spec =
      prependRefs r0 (recordImportSpecifier src s spec) := by
  cases spec with
  | named localName imported tOnly =>
      simp only [recordImportSpecifier]
      split <;> rfl
  | defaultSpecifier localName => rfl
  | namespaceSpecifier localName => rfl

/-- The specifier fold commutes with prepending references. -/
theorem importSpecFold_prepend (r0 : List AssetReference) (src : String)
    (specs : List ImportSpecifier) :
    ∀ s : VisitState,
      specs.foldl (recordImportSpecifier src) (prependRefs r0 s) =
        prependRefs r0 (specs.foldl (recordImportSpecifier src) s) := by
  induction specs with
  | nil => intro s; rfl
  | cons a l ih =>
      intro s
      rw [List.foldl_cons, List.foldl_cons, recordImportSpecifier_prepend,
        ih]

/-- Visiting an import declaration commutes with prepending references. -/
theorem visitImportDecl_prepend (r0 : List AssetReference) (isTs : Bool)
    (st : VisitState) (src : String) (typeOnly : Bool)
    (specifiers : List ImportSpecifier) :
    visitImportDecl isTs (prependRefs r0 st) src typeOnly specifiers =
      prependRefs r0 (visitImportDecl isTs st src typeOnly specifiers) := by
  unfold visitImportDecl
  have h : ({ prependRefs r0 st with references :=
        (prependRefs r0 st).references ++ [.esm (Pattern.ofString src) isTs] }
        : VisitState) =
      prependRefs r0 { st with references :=
        st.references ++ [.esm (Pattern.ofString src) isTs] } := by
    simp [prependRefs]
  rw [h]
  cases typeOnly with
  | true => rfl
  | false =>
      simp only [Bool.false_eq_true, if_false]
      rw [importSpecFold_prepend]

/-- Visiting one declarator commutes with prepending references. -/
theorem visitVarDeclarator_prepend (r0 : List AssetReference)
    (st : VisitState) (d : VarDeclarator) :
    visitVarDeclarator (prependRefs r0 st) d =
      prependRefs r0 (visitVarDeclarator st d) := by
  unfold visitVarDeclarator
  split
  · rfl
  · split
    · rw [visitExpr_prepend]
    · rfl

/-- The declarator fold commutes with prepending references. -/
theorem varDeclFold_prepend (r0 : List AssetReference)
    (decls : List VarDeclarator) :
    ∀ st : VisitState,
      decls.foldl visitVarDeclarator (prependRefs r0 st) =
        prependRefs r0 (decls.foldl visitVarDeclarator st) := by
  induction decls with
  | nil => intro st; rfl
  | cons d l ih =>
      intro st
      rw [List.foldl_cons, List.foldl_cons, visitVarDeclarator_prepend, ih]

/-- Visiting one module item commutes with prepending references. -/
theorem visitModuleItem_prepend (r0 : List AssetReference) (isTs : Bool)
    (st : VisitState) (item : ModuleItem) :
    visitModuleItem isTs (prependRefs r0 st) item =
      prependRefs r0 (visitModuleItem isTs st item) := by
  cases item with
  | importDecl src tOnly specs =>
      simp only [visitModuleItem]
      exact visitImportDecl_prepend r0 isTs st src tOnly specs
  | exportAll src => simp [visitModuleItem, prependRefs]
  | namedExport src =>
      cases src with
      | none => rfl
      | some s => simp [visitModuleItem, prependRefs]
  | varDecl decls =>
      simp only [visitModuleItem]
      exact varDeclFold_prepend r0 decls st
  | exprStmt e =>
      simp only [visitModuleItem]
      exact visitExpr_prepend r0 st e
  | otherItem => rfl

/-- The whole syntactic pass commutes with prepending references: running
the visitor with the direct references already in the shared vector is the
same as running it on an empty vector and prepending. -/
theorem visitProgram_prepend (r0 : List AssetReference) (isTs : Bool)
    (items : List ModuleItem) :
    ∀ st : VisitState,
      visitProgram isTs (prependRefs r0 st) items =
        prependRefs r0 (visitProgram isTs st items) := by
  induction items with
  | nil => intro st; rfl
  | cons it l ih =>
      intro st
      unfold visitProgram
      rw [List.foldl_cons, List.foldl_cons, visitModuleItem_prepend]
      exact ih (visitModuleItem isTs st it)

/-- Skipping the suppressed span in the effect loop is the same as removing
every effect with that span up front: suppressed effects contribute no
references and no diagnostics. -/
theorem processEffects_ignore_eq_filter (lv : JsValue → JsValue) (ts : Bool)
    (sp : Nat) (effs : List Effect) :
    processEffects lv ts (some sp) effs =
      processEffects lv ts Option.none
        (effs.filter fun e => e.span != sp) := by
  induction effs with
  | nil => rfl
  | cons e rest ih =>
      by_cases h : e.span = sp
      · have hb : (sp == e.span) = true := by simp [h]
        have hf : (e.span != sp) = false := by simp [h]
        simp only [processEffects, List.filter_cons, hf, if_false, hb,
          Bool.false_eq_true, if_true, ih]
        simp
      · have hb : (sp == e.span) = false := by
          simp [Ne.symm h]
        have hf : (e.span != sp) = true := by simp [h]
        simp only [processEffects, List.filter_cons, hf, if_true, hb,
          Bool.false_eq_true, if_false, ih]

/-- C2: when the visitor has recorded a webpack runtime marker
`(request, span)` and the request resolves to a webpack-5 runtime, the
`WebpackRuntimeAssetReference` is emitted and the effect loop runs as if
every effect at the recorded span had been removed — so no CJS reference is
emitted for the marker's `require` call. -/
theorem webpack_runtime_marker_suppresses_same_span_effect
    (env : AnalysisEnv) (ty : ModuleAssetType) (program : List ModuleItem)
    (lc : List (CommentKind × String)) (req : String) (sp : Nat)
    (ctx : String)
    (hp : env.parsed = .ok program lc)
    (hrt : (pipelineVisitState env ty program lc).webpackRuntime =
      some (req, sp))
    (hres : resolve_as_webpack_runtime env req = .webpack5 ctx) :
    AssetReference.webpackRuntime req ∈ (module_references env ty).1 ∧
    (module_references env ty).1 =
      (pipelineVisitState env ty program lc).references ++
        (webpackSegment (pipelineVisitState env ty program lc) env).2 ++
        (processEffects env.linkValue (isTypescriptOf ty) Option.none
          (env.effects.filter fun e => e.span != sp)).1 := by
  have hd := module_references_ok_decomposition env ty program lc hp
  have hseg : webpackSegment (pipelineVisitState env ty program lc) env =
      (some sp,
       [AssetReference.webpackRuntime req] ++
         (if (pipelineVisitState env ty program lc).webpackEntry then
            [AssetReference.webpackEntry] else []) ++
         (pipelineVisitState env ty program lc).webpackChunks.map
           AssetReference.webpackChunk) := by
    simp only [webpackSegment, hrt, hres]
  constructor
  · rw [hd]
    simp [hseg]
  · rw [hd]
    simp only [hseg, processEffects_ignore_eq_filter]

/-- Witness for C2: a module whose only item is
`var __webpack_require__ = require("./runtime.js")` (span 42), an effect at
span 42, and a resolver that confirms a webpack-5 runtime. -/
theorem webpack_runtime_marker_suppresses_same_span_effect_witness :
    ((AnalysisEnv.mk (.notFound) (.notFound) []
        (.ok [.varDecl [⟨some "__webpack_require__",
          some (.callExpr (some (.ident "require"))
            [.mk false (.lit (.str "./runtime.js"))] 42)⟩]] [])
        (fun _ => .single "runtime-asset" [])
        (fun _ => .webpack5 "ctx")
        [.call (.freeVar .require) [.constant (.str "./runtime.js")] 42]
        id).parsed =
      .ok [.varDecl [⟨some "__webpack_require__",
          some (.callExpr (some (.ident "require"))
            [.mk false (.lit (.str "./runtime.js"))] 42)⟩]] []) ∧
    AssetReference.webpackRuntime "./runtime.js" ∈
      (module_references
        (AnalysisEnv.mk (.notFound) (.notFound) []
          (.ok [.varDecl [⟨some "__webpack_require__",
            some (.callExpr (some (.ident "require"))
              [.mk false (.lit (.str "./runtime.js"))] 42)⟩]] [])
          (fun _ => .single "runtime-asset" [])
          (fun _ => .webpack5 "ctx")
          [.call (.freeVar .require) [.constant (.str "./runtime.js")] 42]
          id) .ecmascript).1 := by
  refine ⟨rfl, (webpack_runtime_marker_suppresses_same_span_effect
    (AnalysisEnv.mk (.notFound) (.notFound) []
      (.ok [.varDecl [⟨some "__webpack_require__",
        some (.callExpr (some (.ident "require"))
          [.mk false (.lit (.str "./runtime.js"))] 42)⟩]] [])
      (fun _ => .single "runtime-asset" [])
      (fun _ => .webpack5 "ctx")
      [.call (.freeVar .require) [.constant (.str "./runtime.js")] 42]
      id)
    .ecmascript
    [.varDecl [⟨some "__webpack_require__",
      some (.callExpr (some (.ident "require"))
        [.mk false (.lit (.str "./runtime.js"))] 42)⟩]]
    [] "./runtime.js" 42 "ctx" rfl ?_ rfl).1⟩
  rfl

/-- C5: a call `__webpack_require__.X(_, [elements], _)` with exactly three
arguments whose second argument is an inline array literal makes the
visitor collect exactly one chunk id per literal element (non-literal
elements are skipped, and the visitor emits neither references nor
diagnostics here); and under a confirmed webpack-5 runtime the pipeline
emits one `WebpackChunkAssetReference` per collected id, in order. -/
theorem webpack_chunk_call_collects_literals_and_emits_refs :
    (∀ (st : VisitState) (a c : ExprArg) (elems : List ArrayElem),
      lookupImport st.imports "__webpack_require__" = Option.none →
      webpackCallHandler st
          (some (.memberIdent (.ident "__webpack_require__") "X"))
          [a, .mk false (.array elems), c] =
        { st with webpackChunks := st.webpackChunks ++
            elems.filterMap fun el =>
              match el with
              | .elem false (.lit l) => some l
              | _ => Option.none }) ∧
    (∀ (env : AnalysisEnv) (ty : ModuleAssetType)
      (program : List ModuleItem) (lc : List (CommentKind × String))
      (req : String) (sp : Nat) (ctx : String),
      env.parsed = .ok program lc →
      (pipelineVisitState env ty program lc).webpackRuntime =
        some (req, sp) →
      resolve_as_webpack_runtime env req = .webpack5 ctx →
      (module_references env ty).1 =
        (pipelineVisitState env ty program lc).references ++
          ([AssetReference.webpackRuntime req] ++
            (if (pipelineVisitState env ty program lc).webpackEntry then
              [AssetReference.webpackEntry] else []) ++
            (pipelineVisitState env ty program lc).webpackChunks.map
              AssetReference.webpackChunk) ++
          (processEffects env.linkValue (isTypescriptOf ty) (some sp)
            env.effects).1) := by
  constructor
  · intro st a c elems h
    simp only [webpackCallHandler, evaluate_expr, h, memberStep,
      List.nil_append, collectChunkLits]
    simp
  · intro env ty program lc req sp ctx hp hrt hres
    have hd := module_references_ok_decomposition env ty program lc hp
    have hseg : webpackSegment (pipelineVisitState env ty program lc) env =
        (some sp,
         [AssetReference.webpackRuntime req] ++
           (if (pipelineVisitState env ty program lc).webpackEntry then
              [AssetReference.webpackEntry] else []) ++
           (pipelineVisitState env ty program lc).webpackChunks.map
             AssetReference.webpackChunk) := by
      simp only [webpackSegment, hrt, hres]
    rw [hd]
    simp only [hseg]

/-- Witness for C5: the chunk call `__webpack_require__.X(0, ["a", x, 7], f)`
collects `"a"` and `7` and skips the identifier element; the pipeline of
the C2 witness environment emits one chunk reference per collected id. -/
theorem webpack_chunk_call_collects_literals_and_emits_refs_witness :
    (lookupImport (initVisitState []).imports "__webpack_require__" =
      Option.none) ∧
    webpackCallHandler (initVisitState [])
        (some (.memberIdent (.ident "__webpack_require__") "X"))
        [.mk false (.lit (.num 0)),
         .mk false (.array
           [.elem false (.lit (.str "a")),
            .elem false (.ident "x"),
            .elem false (.lit (.num 7))]),
         .mk false (.ident "f")] =
      { initVisitState [] with webpackChunks :=
          (initVisitState []).webpackChunks ++
            [ArrayElem.elem false (.lit (.str "a")),
             ArrayElem.elem false (.ident "x"),
             ArrayElem.elem false (.lit (.num 7))].filterMap fun el =>
              match el with
              | .elem false (.lit l) => some l
              | _ => Option.none } :=
  ⟨rfl,
   (webpack_chunk_call_collects_literals_and_emits_refs).1
     (initVisitState []) (.mk false (.lit (.num 0)))
     (.mk false (.ident "f"))
     [.elem false (.lit (.str "a")),
      .elem false (.ident "x"),
      .elem false (.lit (.num 7))] rfl⟩

/-- C7: on a successfully parsed module the output list is ordered — the
direct references (package.json, tsconfig.json, triple-slash references,
static import/export edges) first, then the webpack runtime/entry/chunk
references, then the effect-derived references. -/
theorem output_ordered_direct_then_webpack_then_effects
    (env : AnalysisEnv) (ty : ModuleAssetType) (program : List ModuleItem)
    (lc : List (CommentKind × String))
    (hp : env.parsed = .ok program lc) :
    (module_references env ty).1 =
      ((preParseRefs env ty ++ tsSlashRefs ty lc) ++
        (visitProgram (isTypescriptOf ty) (initVisitState [])
          program).references) ++
      (webpackSegment (pipelineVisitState env ty program lc) env).2 ++
      (processEffects env.linkValue (isTypescriptOf ty)
        (webpackSegment (pipelineVisitState env ty program lc) env).1
        env.effects).1 := by
  have hd := module_references_ok_decomposition env ty program lc hp
  have hv : pipelineVisitState env ty program lc =
      prependRefs (preParseRefs env ty ++ tsSlashRefs ty lc)
        (visitProgram (isTypescriptOf ty) (initVisitState []) program) := by
    rw [pipelineVisitState, ← visitProgram_prepend]
    congr 1
    simp [prependRefs, initVisitState]
  have hrefs : (pipelineVisitState env ty program lc).references =
      (preParseRefs env ty ++ tsSlashRefs ty lc) ++
        (visitProgram (isTypescriptOf ty) (initVisitState [])
          program).references := by
    rw [hv]
    simp [prependRefs]
  rw [hd]
  rw [hrefs]

/-- Witness for C7 on a concrete environment (a typescript module with a
package.json, one import and one effect). -/
theorem output_ordered_direct_then_webpack_then_effects_witness :
    ((AnalysisEnv.mk (.found "pkg/package.json") (.notFound) []
        (.ok [.importDecl "./a" false []] [])
        (fun _ => .unresolveable) (fun _ => WebpackRuntime.none)
        [.call (.wellKnownFunction .require)
          [.constant (.str "./b")] 9]
        id).parsed = .ok [.importDecl "./a" false []] []) ∧
    (module_references
        (AnalysisEnv.mk (.found "pkg/package.json") (.notFound) []
          (.ok [.importDecl "./a" false []] [])
          (fun _ => .unresolveable) (fun _ => WebpackRuntime.none)
          [.call (.wellKnownFunction .require)
            [.constant (.str "./b")] 9]
          id) .ecmascript).1 =
      ((preParseRefs
          (AnalysisEnv.mk (.found "pkg/package.json") (.notFound) []
            (.ok [.importDecl "./a" false []] [])
            (fun _ => .unresolveable) (fun _ => WebpackRuntime.none)
            [.call (.wellKnownFunction .require)
              [.constant (.str "./b")] 9]
            id) .ecmascript ++ tsSlashRefs .ecmascript []) ++
        (visitProgram (isTypescriptOf .ecmascript) (initVisitState [])
          [.importDecl "./a" false []]).references) ++
      (webpackSegment (pipelineVisitState
          (AnalysisEnv.mk (.found "pkg/package.json") (.notFound) []
            (.ok [.importDecl "./a" false []] [])
            (fun _ => .unresolveable) (fun _ => WebpackRuntime.none)
            [.call (.wellKnownFunction .require)
              [.constant (.str "./b")] 9]
            id) .ecmascript [.importDecl "./a" false []] [])
          (AnalysisEnv.mk (.found "pkg/package.json") (.notFound) []
            (.ok [.importDecl "./a" false []] [])
            (fun _ => .unresolveable) (fun _ => WebpackRuntime.none)
            [.call (.wellKnownFunction .require)
              [.constant (.str "./b")] 9]
            id)).2 ++
      (processEffects id (isTypescriptOf .ecmascript)
        (webpackSegment (pipelineVisitState
          (AnalysisEnv.mk (.found "pkg/package.json") (.notFound) []
            (.ok [.importDecl "./a" false []] [])
            (fun _ => .unresolveable) (fun _ => WebpackRuntime.none)
            [.call (.wellKnownFunction .require)
              [.constant (.str "./b")] 9]
            id) .ecmascript [.importDecl "./a" false []] [])
          (AnalysisEnv.mk (.found "pkg/package.json") (.notFound) []
            (.ok [.importDecl "./a" false []] [])
            (fun _ => .unresolveable) (fun _ => WebpackRuntime.none)
            [.call (.wellKnownFunction .require)
              [.constant (.str "./b")] 9]
            id)).1
        [.call (.wellKnownFunction .require)
          [.constant (.str "./b")] 9]).1 :=
  ⟨rfl,
   output_ordered_direct_then_webpack_then_effects
     (AnalysisEnv.mk (.found "pkg/package.json") (.notFound) []
       (.ok [.importDecl "./a" false []] [])
       (fun _ => .unresolveable) (fun _ => WebpackRuntime.none)
       [.call (.wellKnownFunction .require)
         [.constant (.str "./b")] 9]
       id) .ecmascript [.importDecl "./a" false []] [] rfl⟩

end Turbopack
